import Mathlib

/-!
Verification of the Toptica Console protocol adapter
(`pymeasure/instruments/toptica/adapters.py`, class `TopticaAdapter`).

The adapter sits on top of a line-oriented serial transport (the `VISAAdapter`
base class, an external collaborator of this file's core).  We embed:

* the compiled regular expression `\w+\s+=\s+(\w+)` and `extract_value` as an
  executable matcher over `List Char` (Python's `re.search` leftmost-match
  semantics; for this particular pattern greedy matching needs no backtracking
  because the character classes `\w`, `\s` and the literal `=` are pairwise
  disjoint, and this file proves the declarative characterization of the
  matcher rather than assuming it);
* the adapter as a state machine: a state carries the buffered input lines,
  the `lastcommand` attribute, the configuration installed at construction,
  and an event trace recording every externally visible transport action
  (lines sent, lines read, input flushes, sleeps).

Character classes are modelled on their ASCII meaning (`\w` = letters, digits
and underscore; `\s` = the six ASCII whitespace characters), matching the
ASCII protocol text the instrument produces.

The `VISAAdapter` base class itself is not part of the sources; its read,
write and flush primitives and the constructor plumbing are modelled from the
specification, and each such definition is marked `Modelled from the spec:`.
-/

namespace Toptica

/-- Python `\w` on ASCII text: letters, digits and the underscore. -/
def isWordChar (c : Char) : Bool := c.isAlphanum || c == '_'

/-- Python `\s` on ASCII text: space, tab, newline, carriage return,
vertical tab and form feed. -/
def isSpaceChar (c : Char) : Bool :=
  c == ' ' || c == '\t' || c == '\n' || c == '\r' ||
  c == Char.ofNat 11 || c == Char.ofNat 12

/-- One match attempt of `_reg_value = re.compile(r"\w+\s+=\s+(\w+)")` anchored
at the start of `s`: greedy `\w+`, greedy `\s+`, literal `=`, greedy `\s+`,
then the captured greedy `(\w+)`.  Returns the captured group on success.
For this pattern greedy matching without backtracking coincides with Python's
backtracking semantics because `\w`, `\s` and `=` are pairwise disjoint. -/
def matchHere (s : List Char) : Option (List Char) :=
  if (s.takeWhile isWordChar).isEmpty then none
  else if ((s.dropWhile isWordChar).takeWhile isSpaceChar).isEmpty then none
  else
    match (s.dropWhile isWordChar).dropWhile isSpaceChar with
    | '=' :: s3 =>
      if (s3.takeWhile isSpaceChar).isEmpty then none
      else if ((s3.dropWhile isSpaceChar).takeWhile isWordChar).isEmpty then none
      else some ((s3.dropWhile isSpaceChar).takeWhile isWordChar)
    | _ => none

/-- Python `re.search`: try the pattern at every start position, leftmost first. -/
def searchValue : List Char → Option (List Char)
  | [] => none
  | c :: rest =>
    match matchHere (c :: rest) with
    | some g => some g
    | none => searchValue rest

/-- The method `TopticaAdapter.extract_value`: `r = self._reg_value.search(reply)`;
return the first captured group if the pattern matches, otherwise the
original reply unchanged. -/
def extract_value (reply : String) : String :=
  match searchValue reply.data with
  | some v => String.mk v
  | none => reply

/-- Externally visible transport actions, in the order they happen. -/
inductive Event where
  | openPort (port : String)
  | setBaudRate (rate : Nat)
  | send (line : String)
  | readLine (line : String)
  | flushInput
  | sleep (seconds : ℚ)
  deriving DecidableEq

/-- Errors surfaced to the caller.  `valueError` carries the formatted
Python `ValueError` message; `attributeError` models access to the
`lastcommand` attribute before any `write` set it; `timeout` models the
transport read timing out on an empty buffer. -/
inductive Err where
  | valueError (message : String)
  | attributeError
  | timeout
  deriving DecidableEq

/-- Adapter state: the buffered unread input lines, the `lastcommand`
attribute (absent until the first `write`), the configuration fixed at
construction, the instrument model `respond` (the reply lines the instrument
appends to the buffer when a command line is sent), and the event trace. -/
structure AdapterState where
  input : List String
  lastcommand : Option String
  preprocess : String → String
  readTermination : String
  writeTermination : String
  queryDelay : ℚ
  baudRate : Nat
  respond : String → List String
  trace : List Event

/-- Outcome of a stateful operation: the Python call either returns a value
or raises; in both cases the side effects on the state persist. -/
inductive Result (α : Type) where
  | ok (value : α) (s : AdapterState)
  | err (e : Err) (s : AdapterState)

/-- The state after the operation, whether it returned or raised. -/
def Result.state {α : Type} : Result α → AdapterState
  | .ok _ s => s
  | .err _ s => s

/-- The returned value, if the operation returned normally. -/
def Result.value? {α : Type} : Result α → Option α
  | .ok v _ => some v
  | .err _ _ => none

/-- The `ValueError` message, if the operation raised one. -/
def Result.errMsg? {α : Type} : Result α → Option String
  | .err (.valueError m) _ => some m
  | _ => none

/-- Modelled from the spec: the transport's `flushInputBuffer` — discard all
buffered unread input (`self.flush()`, inherited from the base adapter). -/
def flush (s : AdapterState) : AdapterState :=
  { s with input := [], trace := s.trace ++ [Event.flushInput] }

/-- Modelled from the spec: the base adapter's `write` — frame the command
with the write terminator and send the single framed line.  The instrument's
reply lines (`respond command`) are appended to the input buffer. -/
def base_write (command : String) (s : AdapterState) : AdapterState :=
  { s with input := s.input ++ s.respond command,
           trace := s.trace ++ [Event.send (command ++ s.writeTermination)] }

/-- Modelled from the spec: the base adapter's `read` — consume the next
buffered line (stripped of the read terminator) and hand it back through the
installed `preprocess_reply` hook, which the spec installs so that every
read-back value is normalized before reaching the caller.  An empty buffer
models a transport timeout. -/
def base_read (s : AdapterState) : Result String :=
  match s.input with
  | [] => .err .timeout s
  | l :: rest =>
    .ok (s.preprocess l) { s with input := rest, trace := s.trace ++ [Event.readLine l] }

/-- The Python f-string
`f"TopticaAdapter: Error after command '{self.lastcommand}' with message '{reply}'"`. -/
def ackErrorMessage (lastcommand reply : String) : String :=
  "TopticaAdapter: Error after command '" ++ lastcommand ++ "' with message '" ++ reply ++ "'"

/-- The Python f-string
`f"TopticaAdapter.write: Error after command '{command}' with message '{reply}'"`. -/
def writeErrorMessage (command reply : String) : String :=
  "TopticaAdapter.write: Error after command '" ++ command ++ "' with message '" ++ reply ++ "'"

/-- The method `TopticaAdapter.check_acknowledgement`: if the reply is not `'[OK]'`,
flush the read buffer and then raise a `ValueError` naming `lastcommand`
and the offending reply. -/
def check_acknowledgement (reply : String) (s : AdapterState) : Result Unit :=
  if reply = "[OK]" then .ok () s
  else
    let s1 := flush s
    match s1.lastcommand with
    | some c => .err (.valueError (ackErrorMessage c reply)) s1
    | none => .err .attributeError s1

/-- The method `TopticaAdapter.write`: record `lastcommand`, send the command, read back
the echoed line end which must be empty (otherwise raise a `ValueError` with
the command and the reply), and when `check_ack` is set read one more line
and run it through `check_acknowledgement`.  The Python parameter default is
`check_ack=True`; the flag is passed explicitly here. -/
def write (command : String) (check_ack : Bool) (s : AdapterState) : Result Unit :=
  let s1 := { s with lastcommand := some command }
  let s2 := base_write command s1
  match base_read s2 with
  | .err e s3 => .err e s3
  | .ok reply s3 =>
    if reply ≠ "" then .err (.valueError (writeErrorMessage command reply)) s3
    else if check_ack then
      match base_read s3 with
      | .err e s4 => .err e s4
      | .ok r2 s4 => check_acknowledgement r2 s4
    else .ok () s3

/-- The method `TopticaAdapter.read`: read the data line, read the acknowledgement line,
validate the acknowledgement, and return the data line. -/
def read (s : AdapterState) : Result String :=
  match base_read s with
  | .err e s1 => .err e s1
  | .ok reply s1 =>
    match base_read s1 with
    | .err e s2 => .err e s2
    | .ok ack s2 =>
      match check_acknowledgement ack s2 with
      | .err e s3 => .err e s3
      | .ok _ s3 => .ok reply s3

/-- Record a `time.sleep` of the given duration. -/
def sleepQ (seconds : ℚ) (s : AdapterState) : AdapterState :=
  { s with trace := s.trace ++ [Event.sleep seconds] }

/-- The method `TopticaAdapter.ask`: `write(command, check_ack=False)`, then
`time.sleep(self.connection.query_delay)`, then `read()`. -/
def ask (command : String) (s : AdapterState) : Result String :=
  match write command false s with
  | .err e s1 => .err e s1
  | .ok _ s1 => read (sleepQ s1.queryDelay s1)

/-- The keyword arguments `TopticaAdapter.__init__` applies `setdefault` to. -/
structure Kwargs where
  preprocess_reply : Option (String → String)
  read_termination : Option String
  write_termination : Option String

/-- No keyword overrides supplied by the caller. -/
def emptyKwargs : Kwargs := ⟨none, none, none⟩

/-- The constructor `TopticaAdapter.__init__`: default the reply hook to `extract_value` and
both terminators to CR+LF, open the transport (Modelled from the spec: the
base `VISAAdapter.__init__` opens the connection; `boot` is whatever input
the instrument has already produced), set the baud rate on the open
connection, send `echo off` and `prom off` through the raw base write
(bypassing echo and acknowledgement checks), sleep 0.04 s, flush the stale
input, and finally `ask('talk usual')`, discarding its result. -/
def construct (port : String) (baud_rate : Nat) (kw : Kwargs)
    (respond : String → List String) (boot : List String) (queryDelay : ℚ) :
    Result AdapterState :=
  let pp := kw.preprocess_reply.getD extract_value
  let rt := kw.read_termination.getD "\r\n"
  let wt := kw.write_termination.getD "\r\n"
  let s0 : AdapterState :=
    { input := boot, lastcommand := none, preprocess := pp,
      readTermination := rt, writeTermination := wt,
      queryDelay := queryDelay, baudRate := 0, respond := respond,
      trace := [Event.openPort port] }
  let s1 := { s0 with baudRate := baud_rate,
                      trace := s0.trace ++ [Event.setBaudRate baud_rate] }
  let s2 := base_write "echo off" s1
  let s3 := base_write "prom off" s2
  let s4 := sleepQ (4/100 : ℚ) s3
  let s5 := flush s4
  match ask "talk usual" s5 with
  | .err e s6 => .err e s6
  | .ok _ s6 => .ok s6 s6

/-! ### Declarative characterization of the value-extraction pattern -/

/-- A nonempty run of word characters (`\w+`). -/
def IsWordRun (l : List Char) : Prop := l ≠ [] ∧ ∀ c ∈ l, isWordChar c = true

/-- A nonempty run of whitespace characters (`\s+`). -/
def IsSpaceRun (l : List Char) : Prop := l ≠ [] ∧ ∀ c ∈ l, isSpaceChar c = true

/-- The reply text contains an occurrence of `\w+\s+=\s+\w+`: a word token,
mandatory whitespace, the equals sign, mandatory whitespace, a word token. -/
def HasPattern (l : List Char) : Prop :=
  ∃ pre w1 sp1 sp2 v post,
    l = pre ++ w1 ++ sp1 ++ '=' :: (sp2 ++ v ++ post) ∧
    IsWordRun w1 ∧ IsSpaceRun sp1 ∧ IsSpaceRun sp2 ∧ IsWordRun v

theorem space_not_word {c : Char} (h : isSpaceChar c = true) : isWordChar c = false := by
  simp only [isSpaceChar, Bool.or_eq_true, beq_iff_eq] at h
  rcases h with ((((h | h) | h) | h) | h) | h <;> subst h <;> decide

theorem word_not_space {c : Char} (h : isWordChar c = true) : isSpaceChar c = false := by
  cases hs : isSpaceChar c with
  | false => rfl
  | true => rw [space_not_word hs] at h; exact absurd h (by simp)

theorem takeWhile_all {p : Char → Bool} {l : List Char} (h : ∀ c ∈ l, p c = true) :
    l.takeWhile p = l ∧ l.dropWhile p = [] := by
  induction l with
  | nil => exact ⟨rfl, rfl⟩
  | cons c t ih =>
    have hc : p c = true := h c (List.mem_cons_self c t)
    have ht := ih fun x hx => h x (List.mem_cons_of_mem c hx)
    simp [List.takeWhile_cons_of_pos hc, List.dropWhile_cons_of_pos hc, ht.1, ht.2]

theorem takeWhile_stop (p : Char → Bool) (xs ys : List Char) (y : Char)
    (hxs : ∀ x ∈ xs, p x = true) (hy : p y = false) :
    (xs ++ y :: ys).takeWhile p = xs ∧ (xs ++ y :: ys).dropWhile p = y :: ys := by
  induction xs with
  | nil =>
    have : ¬ p y = true := by simp [hy]
    simp [List.takeWhile_cons_of_neg this, List.dropWhile_cons_of_neg this]
  | cons x xs ih =>
    have hx : p x = true := hxs x (List.mem_cons_self x xs)
    have ih' := ih fun a ha => hxs a (List.mem_cons_of_mem x ha)
    simp [List.takeWhile_cons_of_pos hx, List.dropWhile_cons_of_pos hx, ih'.1, ih'.2]

theorem dropWhile_head_false {p : Char → Bool} {l t : List Char} {c : Char}
    (h : l.dropWhile p = c :: t) : p c = false := by
  induction l with
  | nil => simp [List.dropWhile] at h
  | cons x xs ih =>
    by_cases hx : p x = true
    · rw [List.dropWhile_cons_of_pos hx] at h
      exact ih h
    · rw [List.dropWhile_cons_of_neg hx] at h
      cases h
      simpa using hx

theorem isEmpty_false_of_ne_nil {l : List Char} (h : l ≠ []) : l.isEmpty = false := by
  cases l with
  | nil => exact absurd rfl h
  | cons a t => rfl

theorem ne_nil_of_isEmpty_false {l : List Char} (h : ¬ l.isEmpty = true) : l ≠ [] := by
  intro hl
  subst hl
  exact h rfl

/-- The anchored match `matchHere` fails on the empty string. -/
theorem matchHere_nil : matchHere [] = none := rfl

/-- A successful anchored match decomposes the text as
`w1 ++ sp1 ++ '=' :: (sp2 ++ v ++ post)` with the run and greediness
properties of the pattern. -/
theorem matchHere_some_decomp {s v : List Char} (h : matchHere s = some v) :
    ∃ w1 sp1 sp2 post,
      s = w1 ++ sp1 ++ '=' :: (sp2 ++ v ++ post) ∧
      IsWordRun w1 ∧ IsSpaceRun sp1 ∧ IsSpaceRun sp2 ∧ IsWordRun v ∧
      (∀ c t, post = c :: t → isWordChar c = false) := by
  unfold matchHere at h
  split at h
  · exact absurd h (by simp)
  rename_i hw1
  split at h
  · exact absurd h (by simp)
  rename_i hsp1
  split at h
  case h_2 => exact absurd h (by simp)
  rename_i s3 heq2
  split at h
  · exact absurd h (by simp)
  rename_i hsp2
  split at h
  · exact absurd h (by simp)
  rename_i hw2
  have hv : v = (s3.dropWhile isSpaceChar).takeWhile isWordChar := by
    exact (Option.some.injEq _ _ ▸ h).symm
  refine ⟨s.takeWhile isWordChar, (s.dropWhile isWordChar).takeWhile isSpaceChar,
          s3.takeWhile isSpaceChar, (s3.dropWhile isSpaceChar).dropWhile isWordChar,
          ?_, ?_, ?_, ?_, ?_, ?_⟩
  · have e1 : s = s.takeWhile isWordChar ++ s.dropWhile isWordChar :=
      (List.takeWhile_append_dropWhile isWordChar s).symm
    have e2 : s.dropWhile isWordChar =
        (s.dropWhile isWordChar).takeWhile isSpaceChar ++ ('=' :: s3) := by
      rw [← heq2]
      exact (List.takeWhile_append_dropWhile isSpaceChar _).symm
    have e3 : s3 = s3.takeWhile isSpaceChar ++ s3.dropWhile isSpaceChar :=
      (List.takeWhile_append_dropWhile isSpaceChar s3).symm
    have e4 : s3.dropWhile isSpaceChar =
        v ++ (s3.dropWhile isSpaceChar).dropWhile isWordChar := by
      rw [hv]
      exact (List.takeWhile_append_dropWhile isWordChar _).symm
    conv_lhs => rw [e1, e2, e3, e4]
    simp [List.append_assoc]
  · exact ⟨ne_nil_of_isEmpty_false hw1, fun c hc => List.mem_takeWhile_imp hc⟩
  · exact ⟨ne_nil_of_isEmpty_false hsp1, fun c hc => List.mem_takeWhile_imp hc⟩
  · exact ⟨ne_nil_of_isEmpty_false hsp2, fun c hc => List.mem_takeWhile_imp hc⟩
  · exact hv ▸ ⟨ne_nil_of_isEmpty_false hw2, fun c hc => List.mem_takeWhile_imp hc⟩
  · intro c t hct
    exact dropWhile_head_false hct

/-- The anchored match succeeds on any text of the shape
`\w+\s+=\s+\w+` followed by anything. -/
theorem matchHere_isSome_of (post : List Char) {w1 sp1 sp2 w2 : List Char}
    (hw1 : IsWordRun w1) (hsp1 : IsSpaceRun sp1) (hsp2 : IsSpaceRun sp2) (hw2 : IsWordRun w2) :
    (matchHere (w1 ++ sp1 ++ '=' :: (sp2 ++ w2 ++ post))).isSome = true := by
  obtain ⟨y, sp1', hsp1e⟩ := List.exists_cons_of_ne_nil hsp1.1
  obtain ⟨wc, w2', hw2e⟩ := List.exists_cons_of_ne_nil hw2.1
  have hyspace : isSpaceChar y = true := hsp1.2 y (hsp1e ▸ List.mem_cons_self y sp1')
  have hwcword : isWordChar wc = true := hw2.2 wc (hw2e ▸ List.mem_cons_self wc w2')
  have t1 : (w1 ++ sp1 ++ '=' :: (sp2 ++ w2 ++ post)).takeWhile isWordChar = w1 ∧
      (w1 ++ sp1 ++ '=' :: (sp2 ++ w2 ++ post)).dropWhile isWordChar =
        sp1 ++ '=' :: (sp2 ++ w2 ++ post) := by
    have := takeWhile_stop isWordChar w1 (sp1' ++ '=' :: (sp2 ++ w2 ++ post)) y
      hw1.2 (space_not_word hyspace)
    rw [hsp1e]
    simpa [List.append_assoc] using this
  have t2 : (sp1 ++ '=' :: (sp2 ++ w2 ++ post)).takeWhile isSpaceChar = sp1 ∧
      (sp1 ++ '=' :: (sp2 ++ w2 ++ post)).dropWhile isSpaceChar =
        '=' :: (sp2 ++ w2 ++ post) := by
    exact takeWhile_stop isSpaceChar sp1 (sp2 ++ w2 ++ post) '=' hsp1.2 (by decide)
  have t3 : (sp2 ++ w2 ++ post).takeWhile isSpaceChar = sp2 ∧
      (sp2 ++ w2 ++ post).dropWhile isSpaceChar = w2 ++ post := by
    have := takeWhile_stop isSpaceChar sp2 (w2' ++ post) wc
      hsp2.2 (word_not_space hwcword)
    rw [hw2e]
    simpa [List.append_assoc] using this
  unfold matchHere
  rw [t1.1, t1.2, t2.1, t2.2]
  rw [isEmpty_false_of_ne_nil hw1.1, isEmpty_false_of_ne_nil hsp1.1]
  simp only [Bool.false_eq_true, if_false]
  rw [t3.1, t3.2, hw2e, List.cons_append, List.takeWhile_cons_of_pos hwcword]
  rw [isEmpty_false_of_ne_nil hsp2.1]
  simp

/-- The search `searchValue` finds the leftmost position at which the anchored match
succeeds: it returns that match's capture, and the match fails at every
strictly earlier position. -/
theorem searchValue_some_strong {l v : List Char} (h : searchValue l = some v) :
    ∃ pre tail, l = pre ++ tail ∧ matchHere tail = some v ∧
      ∀ p t, l = p ++ t → p.length < pre.length → matchHere t = none := by
  induction l with
  | nil => exact absurd h (by simp [searchValue])
  | cons c rest ih =>
    rw [searchValue] at h
    cases hm : matchHere (c :: rest) with
    | some g =>
      rw [hm] at h
      refine ⟨[], c :: rest, rfl, by rw [hm]; exact h, ?_⟩
      intro p t _ hlen
      exact absurd hlen (by simp)
    | none =>
      rw [hm] at h
      simp only at h
      obtain ⟨pre, tail, heq, hmt, hmin⟩ := ih h
      refine ⟨c :: pre, tail, by rw [heq]; rfl, hmt, ?_⟩
      intro p t hp hlen
      cases p with
      | nil =>
        simp only [List.nil_append] at hp
        rw [← hp]
        exact hm
      | cons x p' =>
        rw [List.cons_append] at hp
        injection hp with hx hrest
        exact hmin p' t hrest (by simpa using Nat.lt_of_succ_lt_succ hlen)

/-- On a pure word-character run the pattern never matches (it needs
whitespace and an equals sign). -/
theorem searchValue_all_word {l : List Char} (h : ∀ c ∈ l, isWordChar c = true) :
    searchValue l = none := by
  induction l with
  | nil => rfl
  | cons c rest ih =>
    have hm : matchHere (c :: rest) = none := by
      unfold matchHere
      have ht := takeWhile_all h
      rw [ht.1, ht.2]
      simp
    rw [searchValue, hm]
    exact ih fun x hx => h x (List.mem_cons_of_mem c hx)

/-- If the anchored match succeeds at some position, the search succeeds. -/
theorem searchValue_isSome_append {t : List Char} (ht : (matchHere t).isSome = true)
    (pre : List Char) : (searchValue (pre ++ t)).isSome = true := by
  induction pre with
  | nil =>
    cases t with
    | nil => rw [matchHere_nil] at ht; exact absurd ht (by simp)
    | cons c r =>
      rw [List.nil_append, searchValue]
      cases hm : matchHere (c :: r) with
      | some g => simp
      | none => rw [hm] at ht; exact absurd ht (by simp)
  | cons x pre' ih =>
    rw [List.cons_append, searchValue]
    cases hm : matchHere (x :: (pre' ++ t)) with
    | some g => simp
    | none => simpa using ih

/-- Soundness: a successful search exhibits the pattern. -/
theorem hasPattern_of_searchValue_some {l v : List Char} (h : searchValue l = some v) :
    HasPattern l := by
  obtain ⟨pre, tail, heq, hmt, -⟩ := searchValue_some_strong h
  obtain ⟨w1, sp1, sp2, post, hteq, hw1, hsp1, hsp2, hv, -⟩ := matchHere_some_decomp hmt
  exact ⟨pre, w1, sp1, sp2, v, post, by rw [heq, hteq]; simp [List.append_assoc], hw1, hsp1, hsp2, hv⟩

/-- Completeness: if the pattern occurs in the text, the search succeeds. -/
theorem searchValue_isSome_of_hasPattern {l : List Char} (h : HasPattern l) :
    (searchValue l).isSome = true := by
  obtain ⟨pre, w1, sp1, sp2, v, post, heq, hw1, hsp1, hsp2, hv⟩ := h
  have hm := matchHere_isSome_of post hw1 hsp1 hsp2 hv
  have := searchValue_isSome_append hm pre
  rw [heq]
  simpa [List.append_assoc] using this

/-- The captured group of a successful search is a nonempty word run. -/
theorem searchValue_some_wordRun {l v : List Char} (h : searchValue l = some v) :
    IsWordRun v := by
  obtain ⟨pre, tail, -, hmt, -⟩ := searchValue_some_strong h
  obtain ⟨-, -, -, -, -, -, -, -, hv, -⟩ := matchHere_some_decomp hmt
  exact hv

/-! ### String-level facts about `extract_value` -/

/-- On a matched reply `extract_value` returns the captured word run. -/
theorem extract_value_of_some {r : String} {v : List Char}
    (h : searchValue r.data = some v) : extract_value r = String.mk v := by
  unfold extract_value
  rw [h]

/-- On an unmatched reply `extract_value` returns the reply unchanged. -/
theorem extract_value_of_none {r : String} (h : searchValue r.data = none) :
    extract_value r = r := by
  unfold extract_value
  rw [h]

/-- The function `extract_value` never turns a nonempty reply into the empty string. -/
theorem extract_value_ne_empty {r : String} (h : r ≠ "") : extract_value r ≠ "" := by
  cases hs : searchValue r.data with
  | none => rw [extract_value_of_none hs]; exact h
  | some v =>
    rw [extract_value_of_some hs]
    intro hmk
    have hv := searchValue_some_wordRun hs
    have : v = [] := by
      have := congrArg String.data hmk
      simpa using this
    exact hv.1 this

/-- The acknowledgement token is untouched by `extract_value`, and nothing
else is mapped onto it (the captured group is a word run, while `[OK]`
contains brackets). -/
theorem extract_value_eq_ok_iff {r : String} : extract_value r = "[OK]" ↔ r = "[OK]" := by
  constructor
  · intro h
    cases hs : searchValue r.data with
    | none => rw [extract_value_of_none hs] at h; exact h
    | some v =>
      rw [extract_value_of_some hs] at h
      have hv := searchValue_some_wordRun hs
      have hveq : v = "[OK]".data := by
        have := congrArg String.data h
        simpa using this
      have : isWordChar '[' = true := by
        apply hv.2
        rw [hveq]
        decide
      exact absurd this (by decide)
  · intro h
    subst h
    decide

/-! ### Claim C1 -/

/-- C1, counterexample.  The claim states that the pattern has the equals
sign surrounded by *optional* whitespace and that
`extractValue("power = 12.3 mW") == "12.3"`.  The compiled pattern
`\w+\s+=\s+(\w+)` requires at least one whitespace character on each side of
the equals sign, so `"a=b"` does not match and is returned unchanged, and
`.` is not a word character, so the example reply yields `"12"`, not
`"12.3"`. -/
theorem claim_C1_counterexample :
    extract_value "power = 12.3 mW" = "12" ∧ extract_value "power = 12.3 mW" ≠ "12.3" ∧
    extract_value "a=b" = "a=b" ∧ extract_value "a=b" ≠ "b" := by
  refine ⟨by decide, by decide, by decide, by decide⟩

/-- C1 (amended): `extract_value` is a pure function applying the pattern
`\w+\s+=\s+(\w+)` — word-character tokens with the equals sign surrounded by
*mandatory* whitespace.  A reply in which the pattern does not occur is
returned unchanged; a reply in which it occurs decomposes as
`pre ++ w1 ++ sp1 ++ '=' ++ sp2 ++ v ++ post`, the returned string is the
captured value token `v` of the leftmost match, `v` is a maximal (greedy)
nonempty word-character run, and no decomposition of the reply starts the
match earlier. -/
theorem claim_C1_extract_value (r : String) :
    (¬ HasPattern r.data → extract_value r = r) ∧
    (HasPattern r.data → ∃ v pre w1 sp1 sp2 post,
      r.data = pre ++ w1 ++ sp1 ++ '=' :: (sp2 ++ v ++ post) ∧
      IsWordRun w1 ∧ IsSpaceRun sp1 ∧ IsSpaceRun sp2 ∧ IsWordRun v ∧
      (∀ ch t, post = ch :: t → isWordChar ch = false) ∧
      extract_value r = String.mk v ∧
      (∀ pre2 w12 sp12 sp22 v2 post2,
        r.data = pre2 ++ w12 ++ sp12 ++ '=' :: (sp22 ++ v2 ++ post2) →
        IsWordRun w12 → IsSpaceRun sp12 → IsSpaceRun sp22 → IsWordRun v2 →
        pre.length ≤ pre2.length)) := by
  constructor
  · intro hno
    cases hs : searchValue r.data with
    | none => exact extract_value_of_none hs
    | some v => exact absurd (hasPattern_of_searchValue_some hs) hno
  · intro hyes
    have hsome := searchValue_isSome_of_hasPattern hyes
    obtain ⟨v, hs⟩ := Option.isSome_iff_exists.mp hsome
    obtain ⟨pre, tail, heq, hmt, hmin⟩ := searchValue_some_strong hs
    obtain ⟨w1, sp1, sp2, post, hteq, hw1, hsp1, hsp2, hv, hpost⟩ := matchHere_some_decomp hmt
    refine ⟨v, pre, w1, sp1, sp2, post,
      by rw [heq, hteq]; simp [List.append_assoc], hw1, hsp1, hsp2, hv, hpost,
      extract_value_of_some hs, ?_⟩
    intro pre2 w12 sp12 sp22 v2 post2 heq2 hw12 hsp12 hsp22 hv2
    by_contra hlt
    push_neg at hlt
    have hm2 := matchHere_isSome_of post2 hw12 hsp12 hsp22 hv2
    have hnone := hmin pre2 (w12 ++ sp12 ++ '=' :: (sp22 ++ v2 ++ post2))
      (by rw [heq2]; simp [List.append_assoc]) hlt
    rw [hnone] at hm2
    exact absurd hm2 (by simp)

/-- C1, witness: `"x = 1"` matches the pattern and the amended theorem
applies to it. -/
theorem claim_C1_witness :
    HasPattern "x = 1".data ∧ ∃ v pre w1 sp1 sp2 post,
      "x = 1".data = pre ++ w1 ++ sp1 ++ '=' :: (sp2 ++ v ++ post) ∧
      IsWordRun w1 ∧ IsSpaceRun sp1 ∧ IsSpaceRun sp2 ∧ IsWordRun v ∧
      (∀ ch t, post = ch :: t → isWordChar ch = false) ∧
      extract_value "x = 1" = String.mk v ∧
      (∀ pre2 w12 sp12 sp22 v2 post2,
        "x = 1".data = pre2 ++ w12 ++ sp12 ++ '=' :: (sp22 ++ v2 ++ post2) →
        IsWordRun w12 → IsSpaceRun sp12 → IsSpaceRun sp22 → IsWordRun v2 →
        pre.length ≤ pre2.length) := by
  have hp : HasPattern "x = 1".data :=
    ⟨[], ['x'], [' '], [' '], ['1'], [], by decide,
     ⟨by decide, by decide⟩, ⟨by decide, by decide⟩, ⟨by decide, by decide⟩, ⟨by decide, by decide⟩⟩
  exact ⟨hp, (claim_C1_extract_value "x = 1").2 hp⟩

/-! ### Claim C8 -/

/-- C8: applying `extract_value` to its own output is a no-op.  This holds
unconditionally (so in particular under the claim's hypothesis that the
extracted value contains no further pattern): a captured value is a pure
word-character run, which can contain neither the whitespace nor the equals
sign the pattern requires. -/
theorem claim_C8_idempotent (r : String) :
    extract_value (extract_value r) = extract_value r := by
  cases hs : searchValue r.data with
  | none => rw [extract_value_of_none hs, extract_value_of_none hs]
  | some v =>
    rw [extract_value_of_some hs]
    have hv := searchValue_some_wordRun hs
    have hnone : searchValue (String.mk v).data = none :=
      searchValue_all_word (by simpa using hv.2)
    rw [extract_value_of_none hnone]

/-! ### Behaviour of the stateful operations -/

/-- Evaluation fact: `extract_value` leaves the empty echo line empty. -/
theorem extract_value_empty : extract_value "" = "" := by decide

/-- Evaluation fact: `extract_value` leaves the acknowledgement token unchanged. -/
theorem extract_value_ok : extract_value "[OK]" = "[OK]" := by decide

/-- Behaviour of `write` with the echo line empty and no acknowledgement check requested:
returns normally after sending one framed line and consuming one line. -/
theorem write_noack_ok {c : String} {s : AdapterState} {e : String} {rest : List String}
    (h : s.input ++ s.respond c = e :: rest) (he : s.preprocess e = "") :
    write c false s = .ok ()
      { s with lastcommand := some c, input := rest,
               trace := s.trace ++ [Event.send (c ++ s.writeTermination), Event.readLine e] } := by
  obtain ⟨inp, lc, pp, rt, wt, qd, br, rsp, tr⟩ := s
  simp only at h he
  simp [write, base_write, base_read, h, he]

/-- Behaviour of `write` with a non-empty echo line: raises the `ValueError` naming the
command and the echoed reply, after sending one framed line and consuming
one line, with no flush. -/
theorem write_echo_bad {c : String} {ck : Bool} {s : AdapterState} {e : String}
    {rest : List String}
    (h : s.input ++ s.respond c = e :: rest) (he : s.preprocess e ≠ "") :
    write c ck s = .err (.valueError (writeErrorMessage c (s.preprocess e)))
      { s with lastcommand := some c, input := rest,
               trace := s.trace ++ [Event.send (c ++ s.writeTermination), Event.readLine e] } := by
  obtain ⟨inp, lc, pp, rt, wt, qd, br, rsp, tr⟩ := s
  simp only at h he
  simp [write, base_write, base_read, h, he]

/-- Behaviour of `write` with acknowledgement check, empty echo and `[OK]` acknowledgement:
returns normally after sending one framed line and consuming two lines. -/
theorem write_ack_ok {c : String} {s : AdapterState} {e a : String} {rest : List String}
    (h : s.input ++ s.respond c = e :: a :: rest) (he : s.preprocess e = "")
    (ha : s.preprocess a = "[OK]") :
    write c true s = .ok ()
      { s with lastcommand := some c, input := rest,
               trace := s.trace ++ [Event.send (c ++ s.writeTermination),
                                    Event.readLine e, Event.readLine a] } := by
  obtain ⟨inp, lc, pp, rt, wt, qd, br, rsp, tr⟩ := s
  simp only at h he ha
  simp [write, base_write, base_read, check_acknowledgement, h, he, ha]

/-- Behaviour of `read` with a valid acknowledgement line: returns the (preprocessed)
data line, consuming exactly the two lines. -/
theorem read_ok {s : AdapterState} {d a : String} {rest : List String}
    (hin : s.input = d :: a :: rest) (ha : s.preprocess a = "[OK]") :
    read s = .ok (s.preprocess d)
      { s with input := rest, trace := s.trace ++ [Event.readLine d, Event.readLine a] } := by
  obtain ⟨inp, lc, pp, rt, wt, qd, br, rsp, tr⟩ := s
  simp only at hin ha
  subst hin
  simp [read, base_read, check_acknowledgement, ha]

/-- Behaviour of `read` with an invalid acknowledgement line: consumes the two lines,
flushes once, and raises the `ValueError` naming `lastcommand` and the bad
acknowledgement. -/
theorem read_bad {s : AdapterState} {d a : String} {rest : List String} {c : String}
    (hin : s.input = d :: a :: rest) (ha : s.preprocess a ≠ "[OK]")
    (hlc : s.lastcommand = some c) :
    read s = .err (.valueError (ackErrorMessage c (s.preprocess a)))
      { s with input := [],
               trace := s.trace ++ [Event.readLine d, Event.readLine a, Event.flushInput] } := by
  obtain ⟨inp, lc, pp, rt, wt, qd, br, rsp, tr⟩ := s
  simp only at hin ha hlc
  subst hin hlc
  simp [read, base_read, check_acknowledgement, flush, ha]

/-- A concrete adapter state with the default configuration, used by the
witness theorems. -/
def sampleState (input : List String) (lastcommand : Option String) : AdapterState :=
  { input := input, lastcommand := lastcommand, preprocess := extract_value,
    readTermination := "\r\n", writeTermination := "\r\n", queryDelay := 1/10,
    baudRate := 115200, respond := fun _ => [], trace := [] }

/-! ### Claim C3 -/

/-- C3: `check_acknowledgement` on exactly `"[OK]"` succeeds and leaves the
state untouched; on any other reply it flushes the input buffer exactly once
(the flush recorded in the state the error carries, i.e. before the raise)
and raises a `ValueError` whose message carries the last issued command and
the unexpected reply. -/
theorem claim_C3_check_acknowledgement (reply : String) (s : AdapterState) (c : String)
    (hlc : s.lastcommand = some c) :
    (reply = "[OK]" → check_acknowledgement reply s = .ok () s) ∧
    (reply ≠ "[OK]" → check_acknowledgement reply s =
      .err (.valueError (ackErrorMessage c reply))
        { s with input := [], trace := s.trace ++ [Event.flushInput] }) := by
  constructor
  · intro h
    simp [check_acknowledgement, h]
  · intro h
    obtain ⟨inp, lc, pp, rt, wt, qd, br, rsp, tr⟩ := s
    simp only at hlc
    subst hlc
    simp [check_acknowledgement, h, flush]

/-- C3, witness: a failing acknowledgement on a concrete state. -/
theorem claim_C3_witness :
    check_acknowledgement "[ERR] foo" (sampleState ["stale"] (some "cmd")) =
      .err (.valueError (ackErrorMessage "cmd" "[ERR] foo"))
        { sampleState ["stale"] (some "cmd") with input := [], trace := [Event.flushInput] } :=
  (claim_C3_check_acknowledgement "[ERR] foo" (sampleState ["stale"] (some "cmd")) "cmd"
    rfl).2 (by decide)

/-! ### Claim C5 -/

/-- C5: after the framed command is sent, one echo line is read; a non-empty
echo line makes `write` raise a `ValueError` whose message carries the
command and the reply as received (through the installed hook, here the
default `extract_value`, which maps no nonempty line to the empty string),
and the error state shows no `flushInput` event and the buffered input left
in place — no resynchronization on this path. -/
theorem claim_C5_write_echo_error (c : String) (ck : Bool) (s : AdapterState)
    (e : String) (rest : List String)
    (hpp : s.preprocess = extract_value) (hin : s.input = e :: rest) (he : e ≠ "") :
    write c ck s = .err (.valueError (writeErrorMessage c (extract_value e)))
      { s with lastcommand := some c, input := rest ++ s.respond c,
               trace := s.trace ++ [Event.send (c ++ s.writeTermination), Event.readLine e] } := by
  have h : s.input ++ s.respond c = e :: (rest ++ s.respond c) := by
    rw [hin]
    simp
  have he' : s.preprocess e ≠ "" := by
    rw [hpp]
    exact extract_value_ne_empty he
  rw [← hpp]
  exact write_echo_bad h he'

/-- C5, witness: a non-empty echo on a concrete state. -/
theorem claim_C5_witness :
    write "set power 5" true (sampleState ["%SYS-W 12"] none) =
      .err (.valueError (writeErrorMessage "set power 5" (extract_value "%SYS-W 12")))
        { input := [], lastcommand := some "set power 5", preprocess := extract_value,
          readTermination := "\r\n", writeTermination := "\r\n", queryDelay := 1/10,
          baudRate := 115200, respond := fun _ => [],
          trace := [Event.send ("set power 5" ++ "\r\n"), Event.readLine "%SYS-W 12"] } :=
  claim_C5_write_echo_error "set power 5" true (sampleState ["%SYS-W 12"] none)
    "%SYS-W 12" [] rfl rfl (by decide)

/-! ### Claim C6 -/

/-- C6: every `write` consumes exactly one echo-check line, plus one
acknowledgement line when requested.  With `check_ack = false` exactly one
framed line is sent and exactly one line consumed regardless of the echo
content check's outcome; with `check_ack = true`, echo `""` and
acknowledgement `"[OK]"`, exactly two lines are consumed and no error is
raised. -/
theorem claim_C6_write_consumes (c : String) (s : AdapterState)
    (hpp : s.preprocess = extract_value) :
    (∀ e rest, s.input = e :: rest →
      (write c false s).state.trace =
        s.trace ++ [Event.send (c ++ s.writeTermination), Event.readLine e]) ∧
    (∀ rest, s.input = "" :: "[OK]" :: rest →
      write c true s = .ok ()
        { s with lastcommand := some c, input := rest ++ s.respond c,
                 trace := s.trace ++ [Event.send (c ++ s.writeTermination),
                                      Event.readLine "", Event.readLine "[OK]"] }) := by
  constructor
  · intro e rest hin
    have h : s.input ++ s.respond c = e :: (rest ++ s.respond c) := by
      rw [hin]
      simp
    by_cases he : s.preprocess e = ""
    · rw [write_noack_ok h he]
      rfl
    · rw [write_echo_bad h he]
      rfl
  · intro rest hin
    have h : s.input ++ s.respond c = "" :: "[OK]" :: (rest ++ s.respond c) := by
      rw [hin]
      simp
    exact write_ack_ok h (by rw [hpp]; exact extract_value_empty)
      (by rw [hpp]; exact extract_value_ok)

/-- C6, witness: the two concrete exchanges from the specification. -/
theorem claim_C6_witness :
    (write "echo off" false (sampleState ["", "[OK]"] none)).state.trace =
      [Event.send ("echo off" ++ "\r\n"), Event.readLine ""] ∧
    write "set power 5" true (sampleState ["", "[OK]"] none) = .ok ()
      { input := [], lastcommand := some "set power 5", preprocess := extract_value,
        readTermination := "\r\n", writeTermination := "\r\n", queryDelay := 1/10,
        baudRate := 115200, respond := fun _ => [],
        trace := [Event.send ("set power 5" ++ "\r\n"),
                  Event.readLine "", Event.readLine "[OK]"] } :=
  ⟨(claim_C6_write_consumes "echo off" (sampleState ["", "[OK]"] none) rfl).1 "" ["[OK]"] rfl,
   (claim_C6_write_consumes "set power 5" (sampleState ["", "[OK]"] none) rfl).2 [] rfl⟩

/-! ### Claim C4 -/

/-- C4, counterexample.  The claim states that on a valid acknowledgement
`read()` returns the first (data) line; but the data line is handed back
through the installed reply-preprocessing hook (the spec installs
`extract_value` by default so every read-back value is normalized before
reaching the caller), so with data `"x = 1"` and ack `"[OK]"` the returned
string is `"1"`, not the data line itself. -/
theorem claim_C4_counterexample :
    (read (sampleState ["x = 1", "[OK]"] (some "cmd"))).value? = some "1" ∧
    (read (sampleState ["x = 1", "[OK]"] (some "cmd"))).value? ≠ some "x = 1" := by
  refine ⟨by decide, by decide⟩

/-- C4 (amended): `read` consumes exactly one data line and one
acknowledgement line.  If the acknowledgement equals `"[OK]"` it returns the
data line as transformed by the installed reply-preprocessing hook (the
default `extract_value`); otherwise it raises a `ValueError` carrying the
last command and the bad acknowledgement, with exactly one input flush
recorded. -/
theorem claim_C4_read (s : AdapterState) (d a : String) (rest : List String) (c : String)
    (hpp : s.preprocess = extract_value) (hin : s.input = d :: a :: rest)
    (hlc : s.lastcommand = some c) :
    (a = "[OK]" → read s = .ok (extract_value d)
      { s with input := rest, trace := s.trace ++ [Event.readLine d, Event.readLine a] }) ∧
    (a ≠ "[OK]" → read s = .err (.valueError (ackErrorMessage c (extract_value a)))
      { s with input := [],
               trace := s.trace ++ [Event.readLine d, Event.readLine a, Event.flushInput] }) := by
  constructor
  · intro ha
    rw [← hpp]
    refine read_ok hin ?_
    rw [hpp, ha]
    exact extract_value_ok
  · intro ha
    rw [← hpp]
    refine read_bad hin ?_ hlc
    rw [hpp]
    intro hq
    exact ha (extract_value_eq_ok_iff.mp hq)

/-- C4, witness: both branches of the amended claim on concrete states. -/
theorem claim_C4_witness :
    read (sampleState ["x = 1", "[OK]"] (some "cmd")) = .ok (extract_value "x = 1")
      { sampleState ["x = 1", "[OK]"] (some "cmd") with
          input := [],
          trace := [Event.readLine "x = 1", Event.readLine "[OK]"] } ∧
    read (sampleState ["x = 1", "[ERR]"] (some "cmd")) =
      .err (.valueError (ackErrorMessage "cmd" (extract_value "[ERR]")))
        { sampleState ["x = 1", "[ERR]"] (some "cmd") with
            input := [],
            trace := [Event.readLine "x = 1", Event.readLine "[ERR]", Event.flushInput] } :=
  ⟨(claim_C4_read (sampleState ["x = 1", "[OK]"] (some "cmd")) "x = 1" "[OK]" [] "cmd"
      rfl rfl rfl).1 rfl,
   (claim_C4_read (sampleState ["x = 1", "[ERR]"] (some "cmd")) "x = 1" "[ERR]" [] "cmd"
      rfl rfl rfl).2 (by decide)⟩

/-! ### Claim C10 -/

/-- C10: when the acknowledgement after a data line is bad, the already-read
data line is irrecoverably dropped: `read` raises instead of returning it,
the post-error state keeps it in no field (`lastcommand` is unchanged and
the buffered input is emptied by the single flush), and the raised message
carries the bad acknowledgement line — the same error is raised whatever the
data line was. -/
theorem claim_C10_read_discards_data (s : AdapterState) (d a : String) (rest : List String)
    (c : String) (hpp : s.preprocess = extract_value) (hin : s.input = d :: a :: rest)
    (hlc : s.lastcommand = some c) (ha : a ≠ "[OK]") :
    (read s).value? = none ∧
    (read s).errMsg? = some (ackErrorMessage c (extract_value a)) ∧
    (read s).state.lastcommand = some c ∧
    (read s).state.input = [] ∧
    (read s).state.trace =
      s.trace ++ [Event.readLine d, Event.readLine a, Event.flushInput] ∧
    (∀ d', (read { s with input := d' :: a :: rest }).errMsg? =
      some (ackErrorMessage c (extract_value a))) := by
  have hppa : s.preprocess a ≠ "[OK]" := by
    rw [hpp]
    intro hq
    exact ha (extract_value_eq_ok_iff.mp hq)
  have hb := read_bad hin hppa hlc
  rw [hpp] at hb
  refine ⟨by rw [hb]; rfl, by rw [hb]; rfl, by rw [hb]; exact hlc, by rw [hb]; rfl,
          by rw [hb]; rfl, ?_⟩
  intro d'
  have hb' := read_bad (s := { s with input := d' :: a :: rest }) rfl
    (by simpa using hppa) (by simpa using hlc)
  rw [hb']
  simp only [Result.errMsg?]
  rw [show ({ s with input := d' :: a :: rest } : AdapterState).preprocess = s.preprocess
    from rfl, hpp]

/-- C10, witness: the bad-acknowledgement exchange from the specification. -/
theorem claim_C10_witness :
    (read (sampleState ["x = 1", "[ERR]"] (some "cmd"))).value? = none ∧
    (read (sampleState ["x = 1", "[ERR]"] (some "cmd"))).errMsg? =
      some (ackErrorMessage "cmd" (extract_value "[ERR]")) ∧
    (read (sampleState ["x = 1", "[ERR]"] (some "cmd"))).state.lastcommand = some "cmd" ∧
    (read (sampleState ["x = 1", "[ERR]"] (some "cmd"))).state.input = [] ∧
    (read (sampleState ["x = 1", "[ERR]"] (some "cmd"))).state.trace =
      (sampleState ["x = 1", "[ERR]"] (some "cmd")).trace ++
        [Event.readLine "x = 1", Event.readLine "[ERR]", Event.flushInput] ∧
    (∀ d', (read { sampleState ["x = 1", "[ERR]"] (some "cmd") with
        input := d' :: "[ERR]" :: [] }).errMsg? =
      some (ackErrorMessage "cmd" (extract_value "[ERR]"))) :=
  claim_C10_read_discards_data (sampleState ["x = 1", "[ERR]"] (some "cmd"))
    "x = 1" "[ERR]" [] "cmd" rfl rfl rfl (by decide)

/-! ### Claim C2 -/

/-- C2, counterexample.  The claim's example expects
`ask("power?") = "12.3"` for the data line `"power = 12.3 mW"`; the
extraction pattern `(\w+)` stops at the dot, so the call returns `"12"`. -/
theorem claim_C2_counterexample :
    (ask "power?" { sampleState [] none with
      respond := fun _ => ["", "power = 12.3 mW", "[OK]"] }).value? = some "12" ∧
    (ask "power?" { sampleState [] none with
      respond := fun _ => ["", "power = 12.3 mW", "[OK]"] }).value? ≠ some "12.3" := by
  refine ⟨by decide, by decide⟩

/-- C2 (amended): `ask` is the composition of `write(command, check_ack :=
false)`, a sleep of exactly the configured query delay (hence at least the
query delay), and `read()`; and on the nominal exchange (echo `""`, one data
line, ack `"[OK]"`) it returns the data line after the installed
reply-preprocessing hook, the default being `extract_value` — so the claim's
example returns `"12"` rather than `"12.3"`. -/
theorem claim_C2_ask (c d : String) (s : AdapterState)
    (hpp : s.preprocess = extract_value) (hin : s.input = [])
    (hresp : s.respond c = ["", d, "[OK]"]) :
    (ask c s = match write c false s with
      | .err e1 s1 => .err e1 s1
      | .ok _ s1 => read (sleepQ s1.queryDelay s1)) ∧
    ask c s = .ok (extract_value d)
      { s with lastcommand := some c, input := [],
               trace := s.trace ++ [Event.send (c ++ s.writeTermination), Event.readLine "",
                                    Event.sleep s.queryDelay, Event.readLine d,
                                    Event.readLine "[OK]"] } := by
  refine ⟨rfl, ?_⟩
  obtain ⟨inp, lc, pp, rt, wt, qd, br, rsp, tr⟩ := s
  simp only at hpp hin hresp
  subst hpp hin
  simp [ask, write, read, base_write, base_read, check_acknowledgement, sleepQ, hresp,
        extract_value_empty, extract_value_ok]

/-- C2, witness: the nominal query exchange on a concrete state. -/
theorem claim_C2_witness :
    ask "power?" { sampleState [] none with
        respond := fun _ => ["", "power = 12.3 mW", "[OK]"] } =
      .ok (extract_value "power = 12.3 mW")
        { sampleState [] none with
          respond := fun _ => ["", "power = 12.3 mW", "[OK]"],
          lastcommand := some "power?", input := [],
          trace := [Event.send ("power?" ++ "\r\n"), Event.readLine "",
                    Event.sleep (1/10), Event.readLine "power = 12.3 mW",
                    Event.readLine "[OK]"] } :=
  (claim_C2_ask "power?" "power = 12.3 mW"
    { sampleState [] none with respond := fun _ => ["", "power = 12.3 mW", "[OK]"] }
    rfl rfl rfl).2

/-! ### Claim C9 -/

/-- Whatever happens inside `write`, the final state carries
`lastcommand = command`, and any `ValueError` it raises is one of the two
messages formatted with that command. -/
theorem write_shape (c : String) (ck : Bool) (s : AdapterState) :
    (write c ck s).state.lastcommand = some c ∧
    ∀ m, (write c ck s).errMsg? = some m →
      ∃ rr, m = writeErrorMessage c rr ∨ m = ackErrorMessage c rr := by
  cases hinp : s.input ++ s.respond c with
  | nil =>
    refine ⟨?_, ?_⟩ <;>
      simp [write, base_write, base_read, hinp, Result.state, Result.errMsg?]
  | cons e rest =>
    by_cases he : s.preprocess e = ""
    · cases ck with
      | false =>
        refine ⟨?_, ?_⟩ <;>
          simp [write, base_write, base_read, hinp, he, Result.state, Result.errMsg?]
      | true =>
        cases rest with
        | nil =>
          refine ⟨?_, ?_⟩ <;>
            simp [write, base_write, base_read, hinp, he, Result.state, Result.errMsg?]
        | cons a rest2 =>
          by_cases ha : s.preprocess a = "[OK]"
          · refine ⟨?_, ?_⟩ <;>
              simp [write, base_write, base_read, check_acknowledgement, hinp, he, ha,
                    Result.state, Result.errMsg?]
          · refine ⟨?_, ?_⟩
            · simp [write, base_write, base_read, check_acknowledgement, flush, hinp, he, ha,
                    Result.state, Result.errMsg?]
            · intro m hm
              simp [write, base_write, base_read, check_acknowledgement, flush, hinp, he, ha,
                    Result.state, Result.errMsg?] at hm
              exact ⟨s.preprocess a, Or.inr hm.symm⟩
    · refine ⟨?_, ?_⟩
      · simp [write, base_write, base_read, hinp, he, Result.state, Result.errMsg?]
      · intro m hm
        simp [write, base_write, base_read, hinp, he, Result.state, Result.errMsg?] at hm
        exact ⟨s.preprocess e, Or.inl hm.symm⟩

/-- The operation `read` never touches `lastcommand`, and any `ValueError` it raises is the
acknowledgement message formatted with the stored `lastcommand`. -/
theorem read_shape (s : AdapterState) :
    (read s).state.lastcommand = s.lastcommand ∧
    ∀ m, (read s).errMsg? = some m →
      ∃ rr c, s.lastcommand = some c ∧ m = ackErrorMessage c rr := by
  cases hinp : s.input with
  | nil =>
    refine ⟨?_, ?_⟩ <;> simp [read, base_read, hinp, Result.state, Result.errMsg?]
  | cons d rest =>
    cases rest with
    | nil =>
      refine ⟨?_, ?_⟩ <;> simp [read, base_read, hinp, Result.state, Result.errMsg?]
    | cons a rest2 =>
      by_cases ha : s.preprocess a = "[OK]"
      · refine ⟨?_, ?_⟩ <;>
          simp [read, base_read, check_acknowledgement, hinp, ha,
                Result.state, Result.errMsg?]
      · cases hlc : s.lastcommand with
        | none =>
          refine ⟨?_, ?_⟩ <;>
            simp [read, base_read, check_acknowledgement, flush, hinp, ha, hlc,
                  Result.state, Result.errMsg?]
        | some c =>
          refine ⟨?_, ?_⟩
          · simp [read, base_read, check_acknowledgement, flush, hinp, ha, hlc,
                  Result.state, Result.errMsg?]
          · intro m hm
            simp [read, base_read, check_acknowledgement, flush, hinp, ha, hlc,
                  Result.state, Result.errMsg?] at hm
            exact ⟨s.preprocess a, c, rfl, hm.symm⟩

/-- C9: `write` records `lastcommand = command` in every outcome — in
particular before and regardless of any transport interaction, since even
the immediate-timeout outcome carries it — and the assignment persists on
the failing paths; any `ValueError` a `write` or an `ask` raises embeds that
very command in its message. -/
theorem claim_C9_lastcommand (c : String) (ck : Bool) (s : AdapterState) :
    (write c ck s).state.lastcommand = some c ∧
    (ask c s).state.lastcommand = some c ∧
    (∀ m, (write c ck s).errMsg? = some m →
      ∃ rr, m = writeErrorMessage c rr ∨ m = ackErrorMessage c rr) ∧
    (∀ m, (ask c s).errMsg? = some m →
      ∃ rr, m = writeErrorMessage c rr ∨ m = ackErrorMessage c rr) := by
  have hwf := write_shape c false s
  refine ⟨(write_shape c ck s).1, ?_, (write_shape c ck s).2, ?_⟩
  · cases hww : write c false s with
    | err e1 s1 =>
      have h1 := hwf.1
      rw [hww] at h1
      simpa [ask, hww, Result.state] using h1
    | ok v s1 =>
      have h1 : s1.lastcommand = some c := by
        have := hwf.1
        rw [hww] at this
        simpa [Result.state] using this
      have h2 := (read_shape (sleepQ s1.queryDelay s1)).1
      simp only [ask, hww]
      rw [h2]
      simpa [sleepQ] using h1
  · intro m hm
    cases hww : write c false s with
    | err e1 s1 =>
      have hm1 : (Result.err (α := String) e1 s1).errMsg? = some m := by
        simpa [ask, hww] using hm
      have hm' : (write c false s).errMsg? = some m := by
        rw [hww]
        cases e1 <;> simp only [Result.errMsg?] at hm1 ⊢ <;> exact hm1
      exact hwf.2 m hm'
    | ok v s1 =>
      have h1 : s1.lastcommand = some c := by
        have := hwf.1
        rw [hww] at this
        simpa [Result.state] using this
      have hm' : (read (sleepQ s1.queryDelay s1)).errMsg? = some m := by
        simpa [ask, hww] using hm
      obtain ⟨rr, c', hc', hmm⟩ := (read_shape (sleepQ s1.queryDelay s1)).2 m hm'
      have : c' = c := by
        have : (sleepQ s1.queryDelay s1).lastcommand = s1.lastcommand := rfl
        rw [this, h1] at hc'
        exact (Option.some.injEq _ _ ▸ hc').symm
      exact ⟨rr, Or.inr (by rw [hmm, this])⟩

/-- C9, witness: a failed `write` on a concrete state keeps the command in
`lastcommand` and embeds it in the raised message. -/
theorem claim_C9_witness :
    (write "q" false (sampleState ["BAD"] none)).state.lastcommand = some "q" ∧
    ∃ rr, writeErrorMessage "q" "BAD" = writeErrorMessage "q" rr ∨
          writeErrorMessage "q" "BAD" = ackErrorMessage "q" rr :=
  ⟨(claim_C9_lastcommand "q" false (sampleState ["BAD"] none)).1,
   (claim_C9_lastcommand "q" false (sampleState ["BAD"] none)).2.2.1
     (writeErrorMessage "q" "BAD") rfl⟩

/-! ### Claim C7 -/

/-- C7: construction, with no keyword overrides supplied, defaults the reply
hook to `extract_value` and both terminators to CR+LF, then — in trace
order — opens the transport, sets the baud rate on the already-open
connection, sends `echo off` and `prom off` through the raw write path (no
echo or acknowledgement line is read for them), sleeps the fixed 0.04 s
settle delay, flushes the buffered input, and runs the full
`ask("talk usual")` cycle, whose result is discarded. -/
theorem claim_C7_construct (port : String) (baud : Nat) (respond : String → List String)
    (boot : List String) (qd : ℚ) (d : String)
    (hresp : respond "talk usual" = ["", d, "[OK]"]) :
    ∃ s', construct port baud emptyKwargs respond boot qd = .ok s' s' ∧
      s'.preprocess = extract_value ∧
      s'.readTermination = "\r\n" ∧ s'.writeTermination = "\r\n" ∧
      s'.baudRate = baud ∧ s'.lastcommand = some "talk usual" ∧ s'.input = [] ∧
      s'.trace = [Event.openPort port, Event.setBaudRate baud,
                  Event.send ("echo off" ++ "\r\n"), Event.send ("prom off" ++ "\r\n"),
                  Event.sleep (4/100 : ℚ), Event.flushInput,
                  Event.send ("talk usual" ++ "\r\n"), Event.readLine "",
                  Event.sleep qd, Event.readLine d, Event.readLine "[OK]"] := by
  refine ⟨{ input := [], lastcommand := some "talk usual", preprocess := extract_value,
            readTermination := "\r\n", writeTermination := "\r\n", queryDelay := qd,
            baudRate := baud, respond := respond,
            trace := [Event.openPort port, Event.setBaudRate baud,
                      Event.send ("echo off" ++ "\r\n"), Event.send ("prom off" ++ "\r\n"),
                      Event.sleep (4/100 : ℚ), Event.flushInput,
                      Event.send ("talk usual" ++ "\r\n"), Event.readLine "",
                      Event.sleep qd, Event.readLine d, Event.readLine "[OK]"] },
    ?_, rfl, rfl, rfl, rfl, rfl, rfl, rfl⟩
  simp [construct, emptyKwargs, ask, write, read, base_write, base_read,
        check_acknowledgement, flush, sleepQ, hresp, extract_value_empty, extract_value_ok]

/-- C7, witness: construction against a concrete instrument model. -/
theorem claim_C7_witness :
    ∃ s', construct "COM1" 115200 emptyKwargs
        (fun c => if c = "talk usual" then ["", "t0", "[OK]"] else [])
        ["boot banner"] (1/10) = .ok s' s' ∧
      s'.preprocess = extract_value ∧
      s'.readTermination = "\r\n" ∧ s'.writeTermination = "\r\n" ∧
      s'.baudRate = 115200 ∧ s'.lastcommand = some "talk usual" ∧ s'.input = [] ∧
      s'.trace = [Event.openPort "COM1", Event.setBaudRate 115200,
                  Event.send ("echo off" ++ "\r\n"), Event.send ("prom off" ++ "\r\n"),
                  Event.sleep (4/100 : ℚ), Event.flushInput,
                  Event.send ("talk usual" ++ "\r\n"), Event.readLine "",
                  Event.sleep (1/10), Event.readLine "t0", Event.readLine "[OK]"] :=
  claim_C7_construct "COM1" 115200
    (fun c => if c = "talk usual" then ["", "t0", "[OK]"] else [])
    ["boot banner"] (1/10) "t0" (by decide)

end Toptica
